import Mathlib

/-!
# Verification of the `kvs` log-structured key/value store

Shallow embedding of the repository's Rust sources:

* `src/lib.rs` — the native engine `KvStore` (directory `map`, in-memory
  `logs`, slot counter `seek`, slot files on disk), the record/wire codec
  (`serde_json`), the `KvsServer` dispatch loop and the `KvsClient` stub;
* `src/bin/kvs-client.rs` — the client CLI's `rm` subcommand handling.

Modelling conventions:

* The filesystem under the engine's root is a map `Nat → Option String` from
  slot index to file contents (file `i` of the Rust code).  `rename` and
  `remove_file` fail (Rust `io::Error`, modelled as `KvsError.IoErr`) when the
  source file is absent, exactly as on POSIX; `rename` onto the same path is a
  successful no-op, and `File::create` is create-or-truncate.
* `serde_json::to_string` / `from_str` for the `Command`, `Request` and
  `Response` enums are modelled concretely by `encodeCommand`/`decodeCommand`
  etc., reproducing serde_json's externally-tagged compact encoding and its
  string-escaping rules (escape `"`, `\`, and control characters below 0x20,
  with the named short escapes for \b \t \n \f \r and `\u00XX` otherwise).
* Rust panics (`unwrap` on `None`, `Vec` index out of bounds, `usize`
  underflow in debug builds) abort the process; they are modelled as the
  distinguished outcome `KvsError.Panicked`.
* `HashMap<String, usize>` is modelled as an association list with one
  binding per key (`lookupA` / `insertA` / `eraseA`); `HashMap` has no
  observable ordering, so only lookup behaviour matters.
* The unbounded recovery loop `for i in 0..` in `KvStore::open` is given
  explicit fuel; any fuel larger than the first absent slot index gives the
  loop's exact behaviour.
-/

/-! ## The serde_json codec for the wire/record enums -/

/-- Lower-case hex digit table, as in serde_json's `\u00XX` escapes. -/
def hexDig (n : Nat) : Char :=
  match n with
  | 0 => '0' | 1 => '1' | 2 => '2' | 3 => '3' | 4 => '4'
  | 5 => '5' | 6 => '6' | 7 => '7' | 8 => '8' | 9 => '9'
  | 10 => 'a' | 11 => 'b' | 12 => 'c' | 13 => 'd' | 14 => 'e' | 15 => 'f'
  | _ => '0'

/-- Value of a hex digit character (either case), as accepted by the JSON
string parser. -/
def hexVal (c : Char) : Option Nat :=
  if '0' ≤ c ∧ c ≤ '9' then some (c.toNat - 48)
  else if 'a' ≤ c ∧ c ≤ 'f' then some (c.toNat - 87)
  else if 'A' ≤ c ∧ c ≤ 'F' then some (c.toNat - 55)
  else none

/-- serde_json's escaping of one character inside a JSON string literal:
`"` and `\` get a backslash escape, control characters below 0x20 use the
named short escapes or `\u00XX`, everything else is emitted verbatim. -/
def escChar (c : Char) : List Char :=
  if c = '"' then ['\\', '"']
  else if c = '\\' then ['\\', '\\']
  else if 32 ≤ c.toNat then [c]
  else if c = '\x08' then ['\\', 'b']
  else if c = '\x09' then ['\\', 't']
  else if c = '\x0a' then ['\\', 'n']
  else if c = '\x0c' then ['\\', 'f']
  else if c = '\x0d' then ['\\', 'r']
  else ['\\', 'u', '0', '0', hexDig (c.toNat / 16), hexDig (c.toNat % 16)]

/-- Escape a whole string body. -/
def escList : List Char → List Char
  | [] => []
  | c :: rest => escChar c ++ escList rest

/-- Prepend a decoded character to a string-parser result. -/
def consA (c : Char) (o : Option (List Char × List Char)) :
    Option (List Char × List Char) :=
  o.map (fun p => (c :: p.1, p.2))

/-- JSON string-body parser: consumes characters up to and including the
closing quote, undoing the escapes of `escChar`; returns the decoded body and
the remaining input.  Raw control characters and bad escapes are rejected,
as in serde_json. -/
def unescape : List Char → Option (List Char × List Char)
  | [] => none
  | c :: rest =>
    if c = '"' then some ([], rest)
    else if c = '\\' then
      match rest with
      | [] => none
      | e :: rest1 =>
        if e = '"' then consA '"' (unescape rest1)
        else if e = '\\' then consA '\\' (unescape rest1)
        else if e = '/' then consA '/' (unescape rest1)
        else if e = 'b' then consA '\x08' (unescape rest1)
        else if e = 't' then consA '\x09' (unescape rest1)
        else if e = 'n' then consA '\x0a' (unescape rest1)
        else if e = 'f' then consA '\x0c' (unescape rest1)
        else if e = 'r' then consA '\x0d' (unescape rest1)
        else if e = 'u' then
          match rest1 with
          | h1 :: h2 :: h3 :: h4 :: rest2 =>
            match hexVal h1, hexVal h2, hexVal h3, hexVal h4 with
            | some a, some b, some c2, some d2 =>
              let n := ((a * 16 + b) * 16 + c2) * 16 + d2
              if n < 55296 ∨ (57343 < n ∧ n < 1114112) then
                consA (Char.ofNat n) (unescape rest2)
              else none
            | _, _, _, _ => none
          | _ => none
        else none
    else if c.toNat < 32 then none
    else consA c (unescape rest)

/-- `enum Command { Set(String, String), Remove(String) }` — the on-disk
record type of `src/lib.rs`. -/
inductive Command where
  | Set (key value : String)
  | Remove (key : String)
deriving DecidableEq, Repr

/-- serde_json's compact encoding of `Command` (externally tagged):
`Set(k,v)` becomes the object with key `Set` and a two-element array,
`Remove(k)` the object with key `Remove` and a string. -/
def encodeCommandL : Command → List Char
  | .Set k v =>
    ['{', '"', 'S', 'e', 't', '"', ':', '[', '"'] ++ escList k.data ++
      ['"', ',', '"'] ++ escList v.data ++ ['"', ']', '}']
  | .Remove k =>
    ['{', '"', 'R', 'e', 'm', 'o', 'v', 'e', '"', ':', '"'] ++ escList k.data ++
      ['"', '}']

/-- `serde_json::to_string` on a `Command`. -/
def encodeCommand (c : Command) : String := ⟨encodeCommandL c⟩

/-- Strip an expected literal prefix, returning the remainder of the input
when it matches. -/
def dropLit : List Char → List Char → Option (List Char)
  | [], cs => some cs
  | p :: ps, c :: cs => if c = p then dropLit ps cs else none
  | _ :: _, [] => none

/-- Parse the rest of a two-string tuple variant body `"k","v"]}` after its
opening quote, building the result with `mk2`. -/
def parsePairBody (mk2 : String → String → α) (rest : List Char) : Option α :=
  match unescape rest with
  | some (k, ',' :: '"' :: rest2) =>
    match unescape rest2 with
    | some (v, [']', '}']) => some (mk2 ⟨k⟩ ⟨v⟩)
    | _ => none
  | _ => none

/-- Parse the rest of a single-string variant body `"k"}` after its opening
quote, building the result with `mk1`. -/
def parseStrBody (mk1 : String → α) (rest : List Char) : Option α :=
  match unescape rest with
  | some (k, ['}']) => some (mk1 ⟨k⟩)
  | _ => none

/-- `serde_json::from_str::<Command>` restricted to the canonical compact
form produced by `to_string` (the engine only ever reads back its own
output; other serde_json-acceptable layouts are irrelevant here). -/
def decodeCommandL (cs : List Char) : Option Command :=
  match dropLit ['{', '"', 'S', 'e', 't', '"', ':', '[', '"'] cs with
  | some rest => parsePairBody Command.Set rest
  | none =>
    match dropLit ['{', '"', 'R', 'e', 'm', 'o', 'v', 'e', '"', ':', '"'] cs with
    | some rest => parseStrBody Command.Remove rest
    | none => none

/-- `serde_json::from_str::<Command>` on a whole file's contents. -/
def decodeCommand (s : String) : Option Command := decodeCommandL s.data

/-! ### Round trip of the string escaper -/

theorem hexVal_hexDig : ∀ n, n < 16 → hexVal (hexDig n) = some n := by decide

theorem unescape_escChar (c : Char) (tail : List Char) :
    unescape (escChar c ++ tail) = consA c (unescape tail) := by
  by_cases h1 : c = '"'
  · subst h1
    show unescape ('\\' :: '"' :: tail) = _
    rw [unescape.eq_def]; simp
  by_cases h2 : c = '\\'
  · subst h2
    show unescape ('\\' :: '\\' :: tail) = _
    rw [unescape.eq_def]; simp
  by_cases h3 : 32 ≤ c.toNat
  · have hlt : ¬c.toNat < 32 := by omega
    simp only [escChar, if_neg h1, if_neg h2, if_pos h3, List.cons_append,
      List.nil_append]
    rw [unescape.eq_def]
    simp [h1, h2, hlt]
  by_cases h4 : c = '\x08'
  · subst h4
    show unescape ('\\' :: 'b' :: tail) = _
    rw [unescape.eq_def]; simp
  by_cases h5 : c = '\x09'
  · subst h5
    show unescape ('\\' :: 't' :: tail) = _
    rw [unescape.eq_def]; simp
  by_cases h6 : c = '\x0a'
  · subst h6
    show unescape ('\\' :: 'n' :: tail) = _
    rw [unescape.eq_def]; simp
  by_cases h7 : c = '\x0c'
  · subst h7
    show unescape ('\\' :: 'f' :: tail) = _
    rw [unescape.eq_def]; simp
  by_cases h8 : c = '\x0d'
  · subst h8
    show unescape ('\\' :: 'r' :: tail) = _
    rw [unescape.eq_def]; simp
  · -- the `\u00XX` escape for the remaining control characters
    have hlt : c.toNat < 32 := by omega
    have hdiv : c.toNat / 16 < 16 := by omega
    have hmod : c.toNat % 16 < 16 := by omega
    have hn : c.toNat / 16 * 16 + c.toNat % 16 = c.toNat := by omega
    have hvalid : c.toNat < 55296 := by omega
    have h0 : hexVal '0' = some 0 := by decide
    simp only [escChar, if_neg h1, if_neg h2, if_neg h3, if_neg h4, if_neg h5,
      if_neg h6, if_neg h7, if_neg h8, List.cons_append, List.nil_append]
    rw [unescape.eq_def]
    simp only [h0, hexVal_hexDig _ hdiv, hexVal_hexDig _ hmod]
    simp [hn, hvalid, Char.ofNat_toNat]

theorem unescape_escList (l : List Char) (rest : List Char) :
    unescape (escList l ++ '"' :: rest) = some (l, rest) := by
  induction l with
  | nil =>
    show unescape ('"' :: rest) = _
    rw [unescape.eq_def]; simp
  | cons c l ih =>
    show unescape (escChar c ++ escList l ++ '"' :: rest) = _
    rw [List.append_assoc, unescape_escChar, ih]
    rfl

/-- C9 helper: `String.mk s.data = s`. -/
theorem string_mk_data (s : String) : (⟨s.data⟩ : String) = s := rfl
theorem dropLit_append (lit rest : List Char) : dropLit lit (lit ++ rest) = some rest := by
  induction lit with
  | nil => rfl
  | cons c cs ih => simp [dropLit, ih]

theorem parsePairBody_enc {α : Type} (mk2 : String → String → α) (k v : String) :
    parsePairBody mk2
      (escList k.data ++ '"' :: ',' :: '"' :: (escList v.data ++ ['"', ']', '}']))
      = some (mk2 k v) := by
  simp [parsePairBody, unescape_escList, string_mk_data]

theorem parseStrBody_enc {α : Type} (mk1 : String → α) (k : String) :
    parseStrBody mk1 (escList k.data ++ ['"', '}']) = some (mk1 k) := by
  simp [parseStrBody, unescape_escList, string_mk_data]

/--
C9: For every record r (Set(k, v) with arbitrary string k, v, or Remove(k)),
encoding is deterministic and decoding its encoding yields r, i.e.
decode(encode(r)) = r.  (`encodeCommand` is a function, hence deterministic;
this theorem is the round-trip property for the serde_json codec used by
`KvStore::set` and `KvStore::open`/`get`.)
-/
theorem decodeCommand_encodeCommand (r : Command) :
    decodeCommand (encodeCommand r) = some r := by
  cases r with
  | Set k v =>
    show decodeCommandL (encodeCommandL (.Set k v)) = _
    simp [encodeCommandL, decodeCommandL, dropLit, parsePairBody_enc]
  | Remove k =>
    show decodeCommandL (encodeCommandL (.Remove k)) = _
    simp [encodeCommandL, decodeCommandL, dropLit, parseStrBody_enc]

/-! ## Wire protocol messages (`Request`, `Response`) and their codec -/

/-- `enum Request { Get(String), Set(String, String), Remove(String) }`. -/
inductive Request where
  | Get (key : String)
  | Set (key value : String)
  | Remove (key : String)
deriving DecidableEq, Repr

/-- `enum Response { Done(Option<String>), Failed(String) }`. -/
inductive Response where
  | Done (value : Option String)
  | Failed (message : String)
deriving DecidableEq, Repr

/-- serde_json's compact encoding of `Request`. -/
def encodeRequestL : Request → List Char
  | .Get k =>
    ['{', '"', 'G', 'e', 't', '"', ':', '"'] ++ escList k.data ++ ['"', '}']
  | .Set k v =>
    ['{', '"', 'S', 'e', 't', '"', ':', '[', '"'] ++ escList k.data ++
      ['"', ',', '"'] ++ escList v.data ++ ['"', ']', '}']
  | .Remove k =>
    ['{', '"', 'R', 'e', 'm', 'o', 'v', 'e', '"', ':', '"'] ++ escList k.data ++
      ['"', '}']

/-- `serde_json::to_string` on a `Request` (what `KvsClient::request` sends). -/
def encodeRequest (r : Request) : String := ⟨encodeRequestL r⟩

/-- `serde_json::from_str::<Request>` restricted to the canonical compact
form produced by `to_string` (what `KvsServer::serve` reads; the three
variant prefixes are mutually exclusive, so trying them in order is
equivalent to serde's tag dispatch). -/
def decodeRequestL (cs : List Char) : Option Request :=
  match dropLit ['{', '"', 'G', 'e', 't', '"', ':', '"'] cs with
  | some rest => parseStrBody Request.Get rest
  | none =>
    match dropLit ['{', '"', 'S', 'e', 't', '"', ':', '[', '"'] cs with
    | some rest => parsePairBody Request.Set rest
    | none =>
      match dropLit ['{', '"', 'R', 'e', 'm', 'o', 'v', 'e', '"', ':', '"'] cs with
      | some rest => parseStrBody Request.Remove rest
      | none => none

/-- `serde_json::from_str::<Request>` on a whole connection payload. -/
def decodeRequest (s : String) : Option Request := decodeRequestL s.data

/-- serde_json's compact encoding of `Response` (`Done(None)` serializes the
option as JSON `null`). -/
def encodeResponseL : Response → List Char
  | .Done none =>
    ['{', '"', 'D', 'o', 'n', 'e', '"', ':', 'n', 'u', 'l', 'l', '}']
  | .Done (some v) =>
    ['{', '"', 'D', 'o', 'n', 'e', '"', ':', '"'] ++ escList v.data ++ ['"', '}']
  | .Failed m =>
    ['{', '"', 'F', 'a', 'i', 'l', 'e', 'd', '"', ':', '"'] ++ escList m.data ++
      ['"', '}']

/-- `serde_json::to_string` on a `Response` (what the server writes back). -/
def encodeResponse (r : Response) : String := ⟨encodeResponseL r⟩

/-- `serde_json::from_str::<Response>` restricted to the canonical compact
form (what `KvsClient::request` reads back). -/
def decodeResponseL (cs : List Char) : Option Response :=
  match dropLit ['{', '"', 'D', 'o', 'n', 'e', '"', ':', 'n', 'u', 'l', 'l', '}'] cs with
  | some [] => some (.Done none)
  | _ =>
    match dropLit ['{', '"', 'D', 'o', 'n', 'e', '"', ':', '"'] cs with
    | some rest => parseStrBody (fun v => Response.Done (some v)) rest
    | none =>
      match dropLit ['{', '"', 'F', 'a', 'i', 'l', 'e', 'd', '"', ':', '"'] cs with
      | some rest => parseStrBody Response.Failed rest
      | none => none

/-- `serde_json::from_str::<Response>` on a whole reply payload. -/
def decodeResponse (s : String) : Option Response := decodeResponseL s.data

/-- Round trip of the request codec: what the client sends, the server
decodes back to the same request. -/
theorem decodeRequest_encodeRequest (r : Request) :
    decodeRequest (encodeRequest r) = some r := by
  cases r with
  | Get k =>
    show decodeRequestL (encodeRequestL (.Get k)) = _
    simp [encodeRequestL, decodeRequestL, dropLit, parseStrBody_enc]
  | Set k v =>
    show decodeRequestL (encodeRequestL (.Set k v)) = _
    simp [encodeRequestL, decodeRequestL, dropLit, parsePairBody_enc]
  | Remove k =>
    show decodeRequestL (encodeRequestL (.Remove k)) = _
    simp [encodeRequestL, decodeRequestL, dropLit, parseStrBody_enc]

/-! ## Errors (`enum KvsError`) -/

/-- `enum KvsError` from `src/lib.rs`, restricted to the variants the native
engine and client can produce.  `Panicked` is not a Rust error value: it
models process abort from `unwrap()` on `None`, `Vec` indexing out of
bounds, or debug-mode `usize` underflow.  `FuelOut` is an artifact of the
fuel-bounded recovery loop only, distinct from every program outcome; it is
never returned when the fuel exceeds the first absent slot index. -/
inductive KvsError where
  | NotFound (key : String)
  | Remote (message : String)
  | IoErr
  | Serde
  | Panicked
  | FuelOut
deriving DecidableEq, Repr

/-- `impl Display for KvsError`: `NotFound` formats as
`Key not found: {key}`; every other variant falls back to the `{:#?}` debug
representation, whose exact text carries an opaque payload and is
abstracted to a fixed tag here (no claim depends on it). -/
def KvsError.display : KvsError → String
  | .NotFound k => "Key not found: " ++ k
  | .Remote _ => "Remote"
  | .IoErr => "Io"
  | .Serde => "Serde"
  | .Panicked => "Panicked"
  | .FuelOut => "FuelOut"

/-- `Except.isOk` specialised to the engine's `Result`. -/
def isOkE {ε α : Type} : Except ε α → Bool
  | .ok _ => true
  | .error _ => false

/-! ## The native engine state -/

/-- `enum Storage { Disk(usize), Memory(String) }`: where a log entry's
value currently lives. -/
inductive Storage where
  | Disk (i : Nat)
  | Memory (v : String)
deriving DecidableEq, Repr

/-- The filesystem under the engine's root: slot file `i` (the file named
`i` in Rust) maps to its contents, `none` when absent. -/
def DiskFiles : Type := Nat → Option String

/-- `struct KvStore { map, logs, seek, root }` together with the filesystem
under `root` (the `disk` field stands for the files; `root` itself carries
no information beyond naming them). -/
structure Sys where
  map : List (String × Nat)
  logs : List (String × Storage)
  seek : Nat
  disk : DiskFiles

/-! Association-list model of `HashMap<String, usize>` (and of the
specification-side value map). -/

/-- `HashMap::get`. -/
def lookupA {α : Type} : List (String × α) → String → Option α
  | [], _ => none
  | (k', v) :: rest, k => if k' = k then some v else lookupA rest k

/-- `HashMap::remove` (all bindings of the key; with at most one binding
per key this is exactly one removal). -/
def eraseA {α : Type} (k : String) (m : List (String × α)) : List (String × α) :=
  m.filter (fun p => p.1 ≠ k)

/-- `HashMap::insert`: one binding per key, replacing any existing one. -/
def insertA {α : Type} (k : String) (v : α) (m : List (String × α)) :
    List (String × α) :=
  (k, v) :: eraseA k m

/-! Filesystem primitives.  `fsRename`/`fsRemove` return `none` when the
source file is absent, which the Rust code surfaces as an `io::Error`. -/

/-- `fs::rename(src, dst)`: fails if `src` is absent; renaming a file onto
itself succeeds and changes nothing; otherwise `dst` is overwritten and
`src` disappears. -/
def fsRename (src dst : Nat) (d : DiskFiles) : Option DiskFiles :=
  match d src with
  | none => none
  | some c => some (fun j => if j = dst then some c else if j = src then none else d j)

/-- `fs::remove_file(i)`: fails if the file is absent. -/
def fsRemove (i : Nat) (d : DiskFiles) : Option DiskFiles :=
  match d i with
  | none => none
  | some _ => some (fun j => if j = i then none else d j)

/-- `File::create(i)` followed by a successful full write of `s` (the
infallible-filesystem composition used by `KvStore::set`). -/
def fsWrite (i : Nat) (s : String) (d : DiskFiles) : DiskFiles :=
  fun j => if j = i then some s else d j

namespace KvStore

/--
`KvsEngine::get for KvStore` (src/lib.rs lines 238-278).  Looks the key up
in the directory; on a hit, inspects the log entry: a `Memory` value is
returned directly, a `Disk(o)` value is read from slot file `o`, decoded,
installed in the cache and returned.  A decoded `Remove` record is the
detected inconsistency: the key is unbound and `None` returned (the
`eprintln!` diagnostic has no effect on state).  `logs.get_mut(off).unwrap()`
panics if the slot index is out of range (`Panicked`); a missing file is an
`IoErr`, an undecodable file a `Serde` error.
-/
def get (key : String) (s : Sys) : Except KvsError (Option String × Sys) :=
  match lookupA s.map key with
  | none => .ok (none, s)
  | some offset =>
    match s.logs.get? offset with
    | none => .error .Panicked
    | some (_, .Memory v) => .ok (some v, s)
    | some (k0, .Disk o) =>
      match s.disk o with
      | none => .error .IoErr
      | some str =>
        match decodeCommand str with
        | none => .error .Serde
        | some (.Set _ v) =>
          .ok (some v, { s with logs := s.logs.set offset (k0, .Memory v) })
        | some (.Remove _) =>
          .ok (none, { s with map := eraseA key s.map })

/--
`KvsEngine::set for KvStore` (src/lib.rs lines 280-315).  If the key is
already bound at slot `offset`, slot file `offset` is overwritten with the
encoded `Set` record; then the log entry's cached value is refreshed when
it is `Memory`, and left alone when it is `Disk`.  Otherwise the record is
written to slot file `seek`, the key is bound to `seek`, the entry
`(key, Memory value)` is appended (write-through), and `seek` increments.
`self.logs[*offset]` panics when the slot index is out of range.
-/
def set (key value : String) (s : Sys) : Except KvsError Sys :=
  match lookupA s.map key with
  | some offset =>
    let d' := fsWrite offset (encodeCommand (.Set key value)) s.disk
    match s.logs.get? offset with
    | none => .error .Panicked
    | some (k0, .Memory _) =>
      .ok { s with disk := d', logs := s.logs.set offset (k0, .Memory value) }
    | some (_, .Disk _) => .ok { s with disk := d' }
  | none =>
    .ok { map := insertA key s.seek s.map,
          logs := s.logs ++ [(key, .Memory value)],
          seek := s.seek + 1,
          disk := fsWrite s.seek (encodeCommand (.Set key value)) s.disk }

/--
`KvsEngine::remove for KvStore` (src/lib.rs lines 318-354), translated
branch for branch.  An unbound key is a `NotFound` error.  Otherwise
`seek` is decremented (debug-mode underflow when `seek == 0` aborts,
`Panicked`); when `seek != offset` the last slot file is renamed into the
hole, the popped last log entry (its `Disk` sub-index rewritten to
`offset`) is stored at `offset`, and the promoted entry's key is rebound
to `offset` — the source has no `map.remove(key)` on this branch, so the
removed key's stale binding survives.  When `seek == offset` the last slot
file is unlinked, the last log entry popped and the key unbound.
-/
def remove (key : String) (s : Sys) : Except KvsError Sys :=
  match lookupA s.map key with
  | none => .error (.NotFound key)
  | some offset =>
    if s.seek = 0 then .error .Panicked
    else
      let seek' := s.seek - 1
      if seek' ≠ offset then
        match fsRename seek' offset s.disk with
        | none => .error .IoErr
        | some d' =>
          match s.logs.getLast? with
          | none => .error .Panicked
          | some last =>
            let log' : String × Storage :=
              match last.2 with
              | .Disk _ => (last.1, .Disk offset)
              | .Memory v => (last.1, .Memory v)
            let logs1 := s.logs.dropLast
            if offset < logs1.length then
              .ok { map := insertA log'.1 offset s.map,
                    logs := logs1.set offset log',
                    seek := seek',
                    disk := d' }
            else .error .Panicked
      else
        match fsRemove seek' s.disk with
        | none => .error .IoErr
        | some d' =>
          .ok { map := eraseA key s.map,
                logs := s.logs.dropLast,
                seek := seek',
                disk := d' }

end KvStore

/-! ## Open / recovery (`KvStore::open`) -/

/-- The cleanup pass at the end of `KvStore::open`:
`for j in seek..i { remove_file(j)?; }` — each removal fails with an
`io::Error` if the file is absent. -/
def removeRange (d : DiskFiles) : List Nat → Option DiskFiles
  | [] => some d
  | j :: rest =>
    match fsRemove j d with
    | none => none
    | some d' => removeRange d' rest

/--
The recovery loop of `KvStore::open` (src/lib.rs lines 161-225), one
iteration per slot-file index `i`, translated branch for branch; `fuel`
bounds the unbounded `for i in 0..` (any fuel exceeding the first absent
index is enough, since the loop breaks there).  A `Set` record whose key is
already bound renames file `i` onto that binding's slot; a fresh key's file
is renamed to slot `seek`.  A `Remove` record with a bound key promotes the
last slot into the hole — `logs[offset] = log` panics when `offset` is not
below the popped array's length — and then unbinds the key; an unbound key
just gets `map.remove`.  When file `i` is absent the residual files in
`[seek, i)` are deleted and the loop ends.
-/
def openLoop (fuel : Nat) (d : DiskFiles) (i : Nat) (map : List (String × Nat))
    (logs : List (String × Storage)) (seek : Nat) : Except KvsError Sys :=
  match fuel with
  | 0 => .error .FuelOut
  | f + 1 =>
    match d i with
    | none =>
      match removeRange d (List.range' seek (i - seek)) with
      | none => .error .IoErr
      | some d' => .ok ⟨map, logs, seek, d'⟩
    | some str =>
      match decodeCommand str with
      | none => .error .Serde
      | some (.Set key _) =>
        match lookupA map key with
        | some offset =>
          match fsRename i offset d with
          | none => .error .IoErr
          | some d' => openLoop f d' (i + 1) map logs seek
        | none =>
          match fsRename i seek d with
          | none => .error .IoErr
          | some d' =>
            openLoop f d' (i + 1) (insertA key seek map)
              (logs ++ [(key, Storage.Disk seek)]) (seek + 1)
      | some (.Remove key) =>
        match lookupA map key with
        | none => openLoop f d (i + 1) (eraseA key map) logs seek
        | some offset =>
          if seek ≠ 0 then
            let seek' := seek - 1
            match fsRename seek' offset d with
            | none => .error .IoErr
            | some d' =>
              match logs.getLast? with
              | none => .error .Panicked
              | some last =>
                let log' : String × Storage :=
                  match last.2 with
                  | .Disk _ => (last.1, Storage.Disk offset)
                  | .Memory v => (last.1, Storage.Memory v)
                let logs1 := logs.dropLast
                if offset < logs1.length then
                  openLoop f d' (i + 1)
                    (eraseA key (insertA log'.1 offset map))
                    (logs1.set offset log') seek'
                else .error .Panicked
          else
            openLoop f d (i + 1) (eraseA key map) logs seek

/-- `KvStore::open(root)` run against the files currently under `root`,
starting from an empty directory, empty log array and `seek = 0`.  The
root-creation and `.kvs` archive-tag reconciliation steps that precede the
loop touch no state the claims mention and are omitted. -/
def KvStore.openRoot (fuel : Nat) (d : DiskFiles) : Except KvsError Sys :=
  openLoop fuel d 0 [] [] 0

/-! ## Operation traces -/

/-- One client-visible mutation of the native engine. -/
inductive Op where
  | set (k v : String)
  | rmv (k : String)
deriving DecidableEq, Repr

/-- Apply one operation; a failed operation (e.g. `remove` returning
`NotFound`) leaves the state unchanged, as the Rust methods do when they
return `Err` without touching `self`. -/
def applyOp (s : Sys) : Op → Sys
  | .set k v =>
    match KvStore.set k v s with
    | .ok s' => s'
    | .error _ => s
  | .rmv k =>
    match KvStore.remove k s with
    | .ok s' => s'
    | .error _ => s

/-- Run a trace of operations left to right. -/
def runOps (s : Sys) (l : List Op) : Sys := l.foldl applyOp s

/-- The store obtained by `KvStore::open` on a fresh (empty) root. -/
def initSys : Sys := ⟨[], [], 0, fun _ => none⟩

/-- Opening an empty root yields the empty engine state. -/
theorem openRoot_empty : KvStore.openRoot 1 (fun _ => none) = .ok initSys := rfl

/-- The value `get` returns, discarding the cache-update effect: `none`
when `get` itself fails, `some r` when it returns `Ok(r)`. -/
def getVal (k : String) (s : Sys) : Option (Option String) :=
  match KvStore.get k s with
  | .ok (v, _) => some v
  | .error _ => none

/-- Specification-side replay of a trace, following the words of P2: after
`set(k, v)` the map binds `k` to `v`; after a remove of a bound key the
binding disappears (a remove of an absent key fails and changes nothing,
which is also what erasing an absent key does). -/
def modelApply (m : List (String × String)) : Op → List (String × String)
  | .set k v => insertA k v m
  | .rmv k => eraseA k m

/-- Final spec-side bindings after a trace from the empty store. -/
def modelRun (l : List Op) : List (String × String) := l.foldl modelApply []

/-! ## Server dispatch and client stub -/

/-- The request-dispatch `match` of `KvsServer::serve` (src/lib.rs lines
511-524), instantiated with the native engine: an engine success becomes
`Done` (carrying the value for `Get`, `None` for `Set`/`Remove`), an engine
error becomes `Failed` with the error's `Display` text. -/
def KvsServer.dispatch (req : Request) (s : Sys) : Response × Sys :=
  match req with
  | .Get key =>
    match KvStore.get key s with
    | .ok (v, s') => (.Done v, s')
    | .error e => (.Failed e.display, s)
  | .Set key value =>
    match KvStore.set key value s with
    | .ok s' => (.Done none, s')
    | .error e => (.Failed e.display, s)
  | .Remove key =>
    match KvStore.remove key s with
    | .ok s' => (.Done none, s')
    | .error e => (.Failed e.display, s)

/-- `KvsServer::serve` on one connection (src/lib.rs lines 507-528): the
fully-read request payload is decoded — a decode failure makes `serve`
return `Err` before any response is written (`none`) — and otherwise the
dispatch result is encoded and written back. -/
def KvsServer.serveConn (input : String) (s : Sys) : Option String × Sys :=
  match decodeRequest input with
  | none => (none, s)
  | some req =>
    let rs := KvsServer.dispatch req s
    (some (encodeResponse rs.1), rs.2)

/-- The engine-level outcome a request asks for, with the value a `Done`
response should carry: the `Get` value, and no value for `Set`/`Remove`. -/
def engineOutcome (req : Request) (s : Sys) : Except KvsError (Option String) :=
  match req with
  | .Get k => (KvStore.get k s).map Prod.fst
  | .Set k v => (KvStore.set k v s).map (fun _ => none)
  | .Remove k => (KvStore.remove k s).map (fun _ => none)

/-- `KvsClient::remove` (src/lib.rs lines 485-491) run against a server
holding the native engine: the encoded `Remove` request crosses one
connection; a missing or undecodable reply is the client's `Serde` error;
`Done` maps to `Ok(())` and `Failed(m)` to `Err(Remote(m))`. -/
def KvsClient.removeOp (s : Sys) (key : String) : Except KvsError Unit × Sys :=
  let out := KvsServer.serveConn (encodeRequest (.Remove key)) s
  match out.1 with
  | none => (.error .Serde, out.2)
  | some payload =>
    match decodeResponse payload with
    | none => (.error .Serde, out.2)
    | some (.Done _) => (.ok (), out.2)
    | some (.Failed m) => (.error (.Remote m), out.2)

/-- The `rm` subcommand of `src/bin/kvs-client.rs` (lines 74-85): the match
arm written `Err(KvsError::NotFound)` fires only for the `NotFound`
variant, printing `Key not found` to stdout and returning the error; every
other result is returned as is (`v => v`), and `main` returning `Err`
exits nonzero.  The result is (lines printed to stdout, exit-nonzero
flag). -/
def cliRm (s : Sys) (key : String) : (List String × Bool) × Sys :=
  let (r, s') := KvsClient.removeOp s key
  match r with
  | .error (.NotFound _) => ((["Key not found"], true), s')
  | .error _ => (([], true), s')
  | .ok _ => (([], false), s')

/-! ## Claim theorems -/

/--
C1 (code_bug evaluation): after `set a 1; set b 2; remove a` on a fresh
store, the last mutation of `a` is a successful `remove` — the claim's own
replay semantics (`modelRun`) binds nothing to `a` — yet `get a` returns
`Some "2")`, the value of the promoted key `b`.  The promotion branch of
`KvStore::remove` rebinds the promoted key but never unbinds the removed
key, so the stale binding `a ↦ 0` resolves to `b`'s log entry.
-/
theorem get_after_remove_returns_promoted_value :
    lookupA (modelRun [.set "a" "1", .set "b" "2", .rmv "a"]) "a" = none ∧
    getVal "a" (runOps initSys [.set "a" "1", .set "b" "2", .rmv "a"]) =
      some (some "2") :=
  ⟨rfl, rfl⟩

/--
C2 (code_bug evaluation): after `set a 1; set b 2; remove a`, no live
binding for `a` exists (the claim-side replay has erased it), so the claim
requires the next `remove a` to fail with NotFound — but it returns Ok,
because the stale directory entry left by the promotion branch still binds
`a`.
-/
theorem remove_succeeds_without_live_binding :
    lookupA (modelRun [.set "a" "1", .set "b" "2", .rmv "a"]) "a" = none ∧
    isOkE (KvStore.remove "a" (runOps initSys [.set "a" "1", .set "b" "2", .rmv "a"]))
      = true :=
  ⟨rfl, rfl⟩

/--
C3 (code_bug evaluation): after the successful operations
`set a 1; set b 2; remove a`, the directory holds the two bindings
`a ↦ 0` and `b ↦ 0` while the slot count is 1: the directory's set of
values has a duplicate and its size differs from the slot count, violating
the claimed invariant at an operation boundary.
-/
theorem directory_invariant_broken_after_remove :
    (runOps initSys [.set "a" "1", .set "b" "2", .rmv "a"]).map.length = 2 ∧
    (runOps initSys [.set "a" "1", .set "b" "2", .rmv "a"]).seek = 1 ∧
    lookupA (runOps initSys [.set "a" "1", .set "b" "2", .rmv "a"]).map "a" = some 0 ∧
    lookupA (runOps initSys [.set "a" "1", .set "b" "2", .rmv "a"]).map "b" = some 0 :=
  ⟨rfl, rfl, rfl, rfl⟩

/--
C4 (code_bug evaluation): the state reached by
`set a 1; set b 2; remove a` answers `get a` with `Some "2"` (through the
stale binding), but reopening the same on-disk root — slot file 0 holds
`Set(b, 2)` and nothing else — yields an engine that answers `get a` with
`None`: closing and reopening does not preserve `get` results.
-/
theorem reopen_changes_get_result :
    getVal "a" (runOps initSys [.set "a" "1", .set "b" "2", .rmv "a"]) =
      some (some "2") ∧
    (KvStore.openRoot 3 (runOps initSys [.set "a" "1", .set "b" "2", .rmv "a"]).disk).toOption.map
        (fun s => getVal "a" s) = some (some none) :=
  ⟨rfl, rfl⟩

/--
C5 (code_bug evaluation): recovering a root whose files are
`0 ↦ Set(a, 1)` and `1 ↦ Remove(a)` reaches the `Remove` branch with the
key bound at slot `j = 0` and `next = 1`; after the decrement `next = j`,
the rename moves file 0 onto itself (no unlink), and `logs[offset] = log`
indexes slot 0 of the just-popped empty array — an out-of-bounds abort,
not the claimed unlink-and-unbind completion.
-/
theorem openRoot_remove_of_last_slot_panics :
    KvStore.openRoot 3
      (fun n => if n = 0 then some (encodeCommand (.Set "a" "1"))
        else if n = 1 then some (encodeCommand (.Remove "a")) else none)
      = .error .Panicked :=
  rfl

/--
C6 (code_bug evaluation): `rm foo` against a server whose store is empty
does round-trip the failure as `Remote` carrying the not-found message
`Key not found: foo`, and the process exits nonzero — but the CLI prints
nothing: its special arm matches the `NotFound` variant, which the client
can never produce (it only returns `Remote` for server-reported failures),
so the `Key not found` line is never printed.
-/
theorem cliRm_absent_key_prints_nothing :
    (KvsClient.removeOp initSys "foo").1 = .error (.Remote "Key not found: foo") ∧
    (cliRm initSys "foo").1 = ([], true) :=
  ⟨rfl, rfl⟩

/--
C7 counterexample: a connection whose payload is not a decodable request
(`serde_json::from_str` fails on `"x"`) makes `serve` return `Err` before
writing anything: the server produces no response at all, refuting "for
every accepted connection, the server produces exactly one response".
-/
theorem serveConn_malformed_no_response :
    (KvsServer.serveConn "x" initSys).1 = none :=
  rfl

/--
C7 (amended): for every connection whose payload is a well-formed encoded
request, the server writes exactly one response: `Failed` carrying the
engine error's display text when the engine operation fails, `Done` when
it succeeds, carrying a value only for `Get` (`engineOutcome` yields no
value for `Set`/`Remove`).
-/
theorem serveConn_wellformed_one_response (req : Request) (s : Sys) :
    (KvsServer.serveConn (encodeRequest req) s).1 =
      some (encodeResponse
        (match engineOutcome req s with
          | .ok v => Response.Done v
          | .error e => Response.Failed e.display)) := by
  cases req with
  | Get k =>
    simp only [KvsServer.serveConn, decodeRequest_encodeRequest, engineOutcome,
      KvsServer.dispatch]
    cases h : KvStore.get k s with
    | ok p => cases p with | mk v s' => simp [h, Except.map]
    | error e => simp [h, Except.map]
  | Set k v =>
    simp only [KvsServer.serveConn, decodeRequest_encodeRequest, engineOutcome,
      KvsServer.dispatch]
    cases h : KvStore.set k v s with
    | ok s' => simp [h, Except.map]
    | error e => simp [h, Except.map]
  | Remove k =>
    simp only [KvsServer.serveConn, decodeRequest_encodeRequest, engineOutcome,
      KvsServer.dispatch]
    cases h : KvStore.remove k s with
    | ok s' => simp [h, Except.map]
    | error e => simp [h, Except.map]

/--
C8: overwriting `set` on a key already bound at slot `j` (with `j` in
range of the log array, as every directory binding of a working store is):
slot file `j` gets the encoded `Set(key, value)` record, the log entry at
`j` has its cached value replaced when it was `Memory` and is untouched
when it was `Disk`, and the directory, the slot counter, every other slot
file and every other log entry are unchanged.
-/
theorem set_overwrite_frame (s : Sys) (key value : String) (j : Nat)
    (hj : lookupA s.map key = some j) (hlen : j < s.logs.length) :
    ∃ s', KvStore.set key value s = .ok s' ∧
      s'.disk j = some (encodeCommand (.Set key value)) ∧
      (∀ i, i ≠ j → s'.disk i = s.disk i) ∧
      s'.map = s.map ∧
      s'.seek = s.seek ∧
      s'.logs.length = s.logs.length ∧
      (∀ i, i ≠ j → s'.logs.get? i = s.logs.get? i) ∧
      (∀ k0 w, s.logs.get? j = some (k0, .Memory w) →
        s'.logs.get? j = some (k0, .Memory value)) ∧
      (∀ k0 o, s.logs.get? j = some (k0, .Disk o) → s'.logs = s.logs) := by
  obtain ⟨⟨k0, st⟩, hg⟩ : ∃ e, s.logs.get? j = some e := by
    rw [List.get?_eq_get hlen]
    exact ⟨_, rfl⟩
  cases st with
  | Memory w =>
    refine ⟨{ s with disk := fsWrite j (encodeCommand (.Set key value)) s.disk,
                     logs := s.logs.set j (k0, .Memory value) },
      ?_, ?_, ?_, rfl, rfl, ?_, ?_, ?_, ?_⟩
    · simp only [KvStore.set, hj, hg]
    · simp [fsWrite]
    · intro i hi
      simp [fsWrite, hi]
    · simp
    · intro i hi
      exact List.get?_set_ne _ _ (fun h => hi h.symm)
    · intro k1 w1 h1
      rw [hg] at h1
      injection h1 with h1
      cases h1
      exact List.get?_set_eq_of_lt _ hlen
    · intro k1 o1 h1
      rw [hg] at h1
      simp at h1
  | Disk o =>
    refine ⟨{ s with disk := fsWrite j (encodeCommand (.Set key value)) s.disk },
      ?_, ?_, ?_, rfl, rfl, rfl, ?_, ?_, ?_⟩
    · simp only [KvStore.set, hj, hg]
    · simp [fsWrite]
    · intro i hi
      simp [fsWrite, hi]
    · intro i _
      rfl
    · intro k1 w1 h1
      rw [hg] at h1
      simp at h1
    · intro _ _ _
      rfl

/-- Concrete store with `a` bound at slot 0, for instantiating the frame
theorem. -/
def sampleBound : Sys :=
  ⟨[("a", 0)], [("a", Storage.Memory "1")], 1,
    fun j => if j = 0 then some (encodeCommand (.Set "a" "1")) else none⟩

/-- Witness for C8 at a concrete bound-key store. -/
theorem set_overwrite_frame_witness :
    lookupA sampleBound.map "a" = some 0 ∧ 0 < sampleBound.logs.length ∧
    isOkE (KvStore.set "a" "2" sampleBound) = true := by
  obtain ⟨s', hs, _⟩ :=
    set_overwrite_frame sampleBound "a" "2" 0 rfl (by simp [sampleBound])
  exact ⟨rfl, by simp [sampleBound], by rw [hs]; rfl⟩

/-! ## `set` with injected filesystem failures (for C10) -/

/-- Which of `set`'s fallible calls fail: `File::create`,
`serde_json::to_string`, `file.write` — consulted in the order the source
makes them. -/
structure FailCfg where
  createFail : Bool
  serFail : Bool
  writeFail : Bool
deriving DecidableEq, Repr

/--
`KvsEngine::set for KvStore` (src/lib.rs lines 280-315) with an explicit
failure outcome for each of its `?` operators, returning the error
alongside the state at the failure point.  A failed `File::create` leaves
the filesystem alone; after a successful create the target file is
truncated (empty), and a subsequent serialization or write failure leaves
it that way; only after all fallible steps succeed are the in-memory
`map`/`logs`/`seek` touched (`Panicked` stands for the
`self.logs[*offset]` out-of-bounds abort, which also precedes any
in-memory update).
-/
def KvStore.setFallible (cfg : FailCfg) (key value : String) (s : Sys) :
    Except KvsError Unit × Sys :=
  match lookupA s.map key with
  | some offset =>
    if cfg.createFail then (.error .IoErr, s)
    else
      let s1 := { s with disk := fsWrite offset "" s.disk }
      if cfg.serFail then (.error .Serde, s1)
      else if cfg.writeFail then (.error .IoErr, s1)
      else
        let s2 := { s1 with disk := fsWrite offset (encodeCommand (.Set key value)) s1.disk }
        match s2.logs.get? offset with
        | none => (.error .Panicked, s2)
        | some (k0, .Memory _) =>
          (.ok (), { s2 with logs := s2.logs.set offset (k0, .Memory value) })
        | some (_, .Disk _) => (.ok (), s2)
  | none =>
    if cfg.createFail then (.error .IoErr, s)
    else
      let s1 := { s with disk := fsWrite s.seek "" s.disk }
      if cfg.serFail then (.error .Serde, s1)
      else if cfg.writeFail then (.error .IoErr, s1)
      else
        (.ok (), { map := insertA key s.seek s.map,
                   logs := s.logs ++ [(key, .Memory value)],
                   seek := s.seek + 1,
                   disk := fsWrite s.seek (encodeCommand (.Set key value)) s.disk })

/--
C10: whenever `set` stops with an error — whichever of its fallible calls
failed, on either branch — the in-memory state (directory `map`, log-entry
array `logs`, and the `seek` counter) is exactly as before the call: all
in-memory updates in `set` come after every fallible step has succeeded.
(Slot-file contents may have been truncated; the claim is only about the
in-memory state.)
-/
theorem setFallible_error_keeps_memory (cfg : FailCfg) (key value : String)
    (s : Sys) (e : KvsError)
    (h : (KvStore.setFallible cfg key value s).1 = .error e) :
    (KvStore.setFallible cfg key value s).2.map = s.map ∧
    (KvStore.setFallible cfg key value s).2.logs = s.logs ∧
    (KvStore.setFallible cfg key value s).2.seek = s.seek := by
  unfold KvStore.setFallible at h ⊢
  cases hl : lookupA s.map key with
  | some offset =>
    simp only [hl] at h ⊢
    by_cases hc : cfg.createFail
    · simp [hc]
    by_cases hs1 : cfg.serFail
    · simp [hc, hs1]
    by_cases hw : cfg.writeFail
    · simp [hc, hs1, hw]
    simp only [hc, hs1, hw, if_false, Bool.false_eq_true] at h ⊢
    cases hg : s.logs[offset]? with
    | none => simp [hg]
    | some p =>
      obtain ⟨k0, st⟩ := p
      cases st with
      | Memory w => simp [hg] at h
      | Disk o => simp [hg] at h
  | none =>
    simp only [hl] at h ⊢
    by_cases hc : cfg.createFail
    · simp [hc]
    by_cases hs1 : cfg.serFail
    · simp [hc, hs1]
    by_cases hw : cfg.writeFail
    · simp [hc, hs1, hw]
    simp [hc, hs1, hw] at h

/-- Witness for C10: a failing `File::create` on a fresh store. -/
theorem setFallible_error_keeps_memory_witness :
    (KvStore.setFallible ⟨true, false, false⟩ "a" "1" initSys).1 = .error .IoErr ∧
    (KvStore.setFallible ⟨true, false, false⟩ "a" "1" initSys).2.map = [] := by
  have h := setFallible_error_keeps_memory ⟨true, false, false⟩ "a" "1" initSys
    .IoErr rfl
  exact ⟨rfl, h.1⟩
